import Mathlib

/-!
# go-scryfall transport core: a shallow embedding

This file embeds the request/response transport core of the `go-scryfall`
library (file `scryfall.go`) in Lean 4 and proves the specified properties
of its dispatch, construction, pagination-unwrapping and date handling
logic.

Modelling conventions:

* Go `error` values arising in the transport core are the inductive
  `GoError`; JSON (un)marshalling failures of the external `encoding/json`
  package are the separate type `JsonError`, injected into `GoError` via
  `GoError.jsonError`, so that an API error and a decode failure are
  distinct by construction, exactly as they are distinct Go error values.
* Response and request bodies are modelled as well-formed JSON values
  (`Json`); the polymorphic destination decode (`decoder.Decode(respBody)`
  with an `interface{}` destination) is an abstract function parameter,
  while the two concrete struct shapes the core itself decodes
  (`Error` and `listResponse`) get concrete decoders modelling
  `encoding/json` on those shapes.
* External collaborators (the HTTP round trip `http.Client.Do`, URL
  reference resolution, `time.Parse`) are abstract function parameters:
  the theorems quantify over them, and witnesses instantiate them.
-/

namespace Scryfall

/-- A failure of the external `encoding/json` package (marshal or
unmarshal); only its presence, never its message, matters to the
transport core. -/
structure JsonError where
  msg : String
deriving Repr, DecidableEq

/-- The Scryfall API error response struct (`Error` in `scryfall.go`):
fields `Status`, `Code`, `Details`, `Type`, `Warnings` with JSON tags
`status`, `code`, `details`, `type`, `warnings`.  The Go field `Type` is
rendered `Type'` because `Type` is a Lean keyword. -/
structure Error where
  Status : Int
  Code : String
  Details : String
  Type' : Option String
  Warnings : List String
deriving Repr, DecidableEq

/-- The zero value of the Go struct `Error` (what `&Error{}` allocates). -/
def zeroError : Error :=
  { Status := 0, Code := "", Details := "", Type' := none, Warnings := [] }

/-- Go `error` values that the transport core can return.
`errMultipleSecrets` is the package-level `ErrMultipleSecrets`;
`urlError` models errors from `net/url` parsing / reference resolution;
`transportError` models errors from `http.Client.Do`;
`jsonError` wraps an `encoding/json` failure;
`apiError` is the `*Error` return of `doReq` on a non-200 status. -/
inductive GoError where
  | errMultipleSecrets
  | urlError (msg : String)
  | transportError (msg : String)
  | jsonError (e : JsonError)
  | apiError (e : Error)
deriving Repr, DecidableEq

instance {ε α : Type} [DecidableEq ε] [DecidableEq α] :
    DecidableEq (Except ε α) := fun a b =>
  match a, b with
  | .ok x, .ok y => decidable_of_iff (x = y) (by simp)
  | .error x, .error y => decidable_of_iff (x = y) (by simp)
  | .ok _, .error _ => .isFalse (by simp)
  | .error _, .ok _ => .isFalse (by simp)

/-- A well-formed JSON value (bodies handed to `encoding/json`). -/
inductive Json where
  | null
  | bool (b : Bool)
  | num (n : Int)
  | str (s : String)
  | arr (elems : List Json)
  | obj (fields : List (String × Json))

/-! ## HTTP requests, responses and the observable event trace -/

/-- HTTP headers as an association list.  `net/http`'s `Header.Set`
replaces any existing value for the key; keys appearing here are already
in canonical MIME form, so no key normalisation is modelled. -/
def setHeader (hs : List (String × String)) (key value : String) :
    List (String × String) :=
  (hs.filter (fun kv => kv.1 ≠ key)) ++ [(key, value)]

/-- Look up a header value (`Header.Get`). -/
def getHeader (hs : List (String × String)) (key : String) : Option String :=
  (hs.find? (fun kv => kv.1 = key)).map (·.2)

/-- An outbound HTTP request as the transport core builds it
(`http.NewRequest` plus `Header.Set` calls).  The body is the JSON value
the marshalled bytes denote; `none` is a request with no body. -/
structure Request where
  method : String
  url : String
  headers : List (String × String)
  body : Option Json

/-- Outcome of the external HTTP round trip `c.client.Do`: either a
transport failure (connection error, timeout, cancellation) or a
response with a status code and a well-formed JSON body. -/
inductive HttpResult where
  | failure (msg : String)
  | response (statusCode : Nat) (body : Json)

/-- Observable effects of one dispatch: a rate-limiter admission
(`c.limiter.Take()`) or an outbound HTTP call (`c.client.Do`). -/
inductive Event where
  | limiterTake
  | httpCall (req : Request)

/-- Count the HTTP calls in an event trace. -/
def countCalls (tr : List Event) : Nat :=
  (tr.filter (fun e => match e with | .httpCall _ => true | _ => false)).length

/-! ## `encoding/json` modelled on the two struct shapes the core decodes

`encoding/json` matches an object key to a struct field by its JSON tag,
preferring an exact match but also accepting an ASCII case-insensitive
one; when several keys match the same field the last assignment wins.
Both are modelled by `lookupField` (the tags here are lower-case ASCII).
A JSON `null` leaves the destination value unchanged, for a whole struct
as well as for a single field.  A value of the wrong JSON kind is an
unmarshalling type error; Go records the first such error and returns
it from `Decode`/`Unmarshal`, which the `Except` monad mirrors. -/

/-- ASCII lower-casing of a character (the case folding relevant to the
ASCII JSON tags used here). -/
def lowerChar (c : Char) : Char :=
  if 'A' ≤ c ∧ c ≤ 'Z' then Char.ofNat (c.toNat + 32) else c

/-- ASCII lower-casing of a string. -/
def lowerString (s : String) : String :=
  ⟨s.data.map lowerChar⟩

/-- The (last) value in an object for the field with the given
lower-case JSON tag, matching keys case-insensitively. -/
def lookupField (fields : List (String × Json)) (tag : String) :
    Option Json :=
  ((fields.filter (fun kv => lowerString kv.1 = tag)).getLast?).map (·.2)

/-- Decode an `int`-typed struct field: absent or `null` keeps the zero
value, a number is taken, anything else is a type error. -/
def decodeFieldInt (fields : List (String × Json)) (tag : String) :
    Except JsonError Int :=
  match lookupField fields tag with
  | none => .ok 0
  | some .null => .ok 0
  | some (.num n) => .ok n
  | some _ => .error ⟨"json: cannot unmarshal value into field " ++ tag ++ " of type int"⟩

/-- Decode a `string`-typed struct field. -/
def decodeFieldString (fields : List (String × Json)) (tag : String) :
    Except JsonError String :=
  match lookupField fields tag with
  | none => .ok ""
  | some .null => .ok ""
  | some (.str s) => .ok s
  | some _ => .error ⟨"json: cannot unmarshal value into field " ++ tag ++ " of type string"⟩

/-- Decode a `*string`-typed struct field (`null` and absence both give
the nil pointer). -/
def decodeFieldStringPtr (fields : List (String × Json)) (tag : String) :
    Except JsonError (Option String) :=
  match lookupField fields tag with
  | none => .ok none
  | some .null => .ok none
  | some (.str s) => .ok (some s)
  | some _ => .error ⟨"json: cannot unmarshal value into field " ++ tag ++ " of type *string"⟩

/-- Decode one element of a `[]string`. -/
def decodeStringElem (j : Json) : Except JsonError String :=
  match j with
  | .str s => .ok s
  | _ => .error ⟨"json: cannot unmarshal value into element of type string"⟩

/-- Decode a `[]string`-typed struct field. -/
def decodeFieldStringList (fields : List (String × Json)) (tag : String) :
    Except JsonError (List String) :=
  match lookupField fields tag with
  | none => .ok []
  | some .null => .ok []
  | some (.arr xs) => xs.mapM decodeStringElem
  | some _ => .error ⟨"json: cannot unmarshal value into field " ++ tag ++ " of type []string"⟩

/-- Model of `encoding/json` unmarshalling into `&Error{}` (the struct `Error` of
`scryfall.go`): `null` leaves the zero value; an object fills the tagged
fields `status`, `code`, `details`, `type`, `warnings`; any other JSON
kind is an unmarshalling type error. -/
def decodeErrorJson (j : Json) : Except JsonError Error :=
  match j with
  | .null => .ok zeroError
  | .obj fields => do
      let st ← decodeFieldInt fields "status"
      let code ← decodeFieldString fields "code"
      let details ← decodeFieldString fields "details"
      let ty ← decodeFieldStringPtr fields "type"
      let warnings ← decodeFieldStringList fields "warnings"
      .ok { Status := st, Code := code, Details := details,
            Type' := ty, Warnings := warnings }
  | _ => .error ⟨"json: cannot unmarshal value into Go value of type scryfall.Error"⟩

/-- The list envelope struct `listResponse` of `scryfall.go`.  `Data`
models the `json.RawMessage` field: `none` is the nil raw message (field
absent), `some j` stores the raw bytes of the JSON value `j` (a raw
message records even an explicit `null`). -/
structure listResponse where
  Data : Option Json
  HasMore : Bool
  NextPage : Option String
  TotalCards : Option Int
  Warnings : List String

/-- Decode a `bool`-typed struct field. -/
def decodeFieldBool (fields : List (String × Json)) (tag : String) :
    Except JsonError Bool :=
  match lookupField fields tag with
  | none => .ok false
  | some .null => .ok false
  | some (.bool b) => .ok b
  | some _ => .error ⟨"json: cannot unmarshal value into field " ++ tag ++ " of type bool"⟩

/-- Decode a `*int`-typed struct field. -/
def decodeFieldIntPtr (fields : List (String × Json)) (tag : String) :
    Except JsonError (Option Int) :=
  match lookupField fields tag with
  | none => .ok none
  | some .null => .ok none
  | some (.num n) => .ok (some n)
  | some _ => .error ⟨"json: cannot unmarshal value into field " ++ tag ++ " of type *int"⟩

/-- Decode a `json.RawMessage`-typed struct field: it captures the raw
value verbatim, even an explicit `null`; absence keeps the nil raw
message. -/
def decodeFieldRaw (fields : List (String × Json)) (tag : String) :
    Except JsonError (Option Json) :=
  match lookupField fields tag with
  | none => .ok none
  | some j => .ok (some j)

/-- Model of `encoding/json` unmarshalling into `&listResponse{}` with the tagged
fields `data` (raw), `has_more`, `next_page`, `total_cards`,
`warnings`. -/
def decodeListResponseJson (j : Json) : Except JsonError listResponse :=
  match j with
  | .null => .ok { Data := none, HasMore := false, NextPage := none,
                   TotalCards := none, Warnings := [] }
  | .obj fields => do
      let data ← decodeFieldRaw fields "data"
      let hasMore ← decodeFieldBool fields "has_more"
      let nextPage ← decodeFieldStringPtr fields "next_page"
      let totalCards ← decodeFieldIntPtr fields "total_cards"
      let warnings ← decodeFieldStringList fields "warnings"
      .ok { Data := data, HasMore := hasMore, NextPage := nextPage,
            TotalCards := totalCards, Warnings := warnings }
  | _ => .error ⟨"json: cannot unmarshal value into Go value of type scryfall.listResponse"⟩

/-- Model of `json.Unmarshal(data, v)` applied to a `json.RawMessage`: a nil raw
message is empty input (`unexpected end of JSON input`); otherwise the
stored value is decoded by the destination's decoder. -/
def unmarshalRaw (dec : Json → Except JsonError α) (raw : Option Json) :
    Except JsonError α :=
  match raw with
  | none => .error ⟨"unexpected end of JSON input"⟩
  | some j => dec j

/-! ## Client construction (`NewClient` and the functional options) -/

/-- The package constants of `scryfall.go` that construction uses. -/
def Version : String := "0.9.0"

def defaultBaseURL : String := "https://api.scryfall.com"

def defaultUserAgent : String := "go-scryfall/" ++ Version

def defaultTimeout : Nat := 30

def defaultReqPerSecond : Nat := 10

/-- The underlying HTTP client carried through construction
(`*http.Client`); only its timeout is configuration-relevant. -/
structure HttpClient where
  timeoutSeconds : Nat
deriving Repr, DecidableEq

/-- The `clientOptions` struct filled in by the functional options.  The
rate limiter (`ratelimit.Limiter`, possibly nil) is `Option Nat`: `none`
is the nil limiter (disabled), `some n` a limiter admitting `n` calls
per second. -/
structure clientOptions where
  baseURL : String
  userAgent : String
  clientSecret : String
  grantSecret : String
  client : HttpClient
  limiter : Option Nat
deriving Repr, DecidableEq

/-- The `ClientOption` type — a functional option mutating `clientOptions`. -/
def ClientOption := clientOptions → clientOptions

def WithBaseURL (baseURL : String) : ClientOption :=
  fun o => { o with baseURL := baseURL }

def WithUserAgent (userAgent : String) : ClientOption :=
  fun o => { o with userAgent := userAgent }

def WithClientSecret (clientSecret : String) : ClientOption :=
  fun o => { o with clientSecret := clientSecret }

def WithGrantSecret (grantSecret : String) : ClientOption :=
  fun o => { o with grantSecret := grantSecret }

def WithHTTPClient (client : HttpClient) : ClientOption :=
  fun o => { o with client := client }

def WithLimiter (limiter : Option Nat) : ClientOption :=
  fun o => { o with limiter := limiter }

/-- The defaults `NewClient` starts from before applying options. -/
def defaultClientOptions : clientOptions :=
  { baseURL := defaultBaseURL
    userAgent := defaultUserAgent
    clientSecret := ""
    grantSecret := ""
    client := { timeoutSeconds := defaultTimeout }
    limiter := some defaultReqPerSecond }

/-- Apply the option functions in order (`for _, option := range options`). -/
def applyOptions (options : List ClientOption) : clientOptions :=
  options.foldl (fun co option => option co) defaultClientOptions

/-- The authorization computation of `NewClient` (lines 201-207 of
`scryfall.go`): start empty, take the client secret if non-empty, then
let a non-empty grant secret overwrite it. -/
def computeAuthorization (co : clientOptions) : String :=
  let a := if co.clientSecret.length ≠ 0 then "Bearer " ++ co.clientSecret else ""
  if co.grantSecret.length ≠ 0 then "Bearer " ++ co.grantSecret else a

/-- A constructed `Client`.  `baseURL` is the already parsed base URL
(URLs are opaque strings in this model). -/
structure Client where
  baseURL : String
  userAgent : String
  authorization : String
  client : HttpClient
  limiter : Option Nat
deriving Repr, DecidableEq

/-- Model of `NewClient`: apply the options to the defaults, fail with
`ErrMultipleSecrets` when both secrets are non-empty, compute the
authorization string, parse the base URL with the external
`url.Parse` (passed in as `urlParse`, failing with its error), and
assemble the client.  No HTTP call is available to construction: the
transport is not even an input. -/
def NewClient (urlParse : String → Except String String)
    (options : List ClientOption) : Except GoError Client :=
  let co := applyOptions options
  if co.clientSecret.length ≠ 0 ∧ co.grantSecret.length ≠ 0 then
    .error .errMultipleSecrets
  else
    match urlParse co.baseURL with
    | .error e => .error (.urlError e)
    | .ok baseURL =>
        .ok { baseURL := baseURL
              userAgent := co.userAgent
              authorization := computeAuthorization co
              client := co.client
              limiter := co.limiter }

/-- A partial model of Go's `net/url.Parse`, covering its first check:
`parse` rejects any raw URL containing an ASCII control byte (code point
below 0x20, or 0x7f) with the error `net/url: invalid control character
in URL`; raw URLs without control bytes are accepted verbatim (the real
parser has further failure modes; this fragment is sound for the inputs
used here). -/
def urlParseModel (rawURL : String) : Except String String :=
  if rawURL.data.any (fun c => c.toNat < 0x20 ∨ c.toNat = 0x7f) then
    .error "net/url: invalid control character in URL"
  else
    .ok rawURL

/-! ## The shared dispatch (`doReq`) and the `get`/`post`/`listGet` primitives -/

/-- The request `doReq` hands to the transport: the incoming request
with the `User-Agent`, `Accept` and (when a credential is configured)
`Authorization` headers set (lines 225-230 of `scryfall.go`). -/
def doReqRequest (c : Client) (req : Request) : Request :=
  let req1 := { req with headers := setHeader req.headers "User-Agent" c.userAgent }
  let req2 := { req1 with headers := setHeader req1.headers "Accept" "application/json" }
  if c.authorization.length ≠ 0 then
    { req2 with headers := setHeader req2.headers "Authorization" c.authorization }
  else
    req2

/-- The rate-limiter admissions `doReq` performs: one `Take()` when the
limiter is not nil, none when it is. -/
def takeEvents (c : Client) : List Event :=
  if c.limiter.isSome then [Event.limiterTake] else []

/-- Model of `Client.doReq`: set the headers, consume one limiter admission if
enabled, perform the single HTTP call (the external `c.client.Do` is the
abstract `transport`), and decode: a transport failure is returned
verbatim; on a non-200 status the body is decoded as the `Error` struct
and returned as the operation's error (a failure of that decode is
itself returned); on a 200 status the body is decoded into the caller's
destination by the abstract polymorphic decoder `dec`
(`decoder.Decode(respBody)`), whose error is propagated unchanged.  The
second component is the trace of observable effects. -/
def doReq (c : Client) (transport : Request → HttpResult) (req : Request)
    (dec : Json → Except JsonError α) : Except GoError α × List Event :=
  let req' := doReqRequest c req
  let events := takeEvents c ++ [Event.httpCall req']
  match transport req' with
  | .failure msg => (.error (.transportError msg), events)
  | .response status body =>
      if status ≠ 200 then
        match decodeErrorJson body with
        | .error e => (.error (.jsonError e), events)
        | .ok scryfallErr => (.error (.apiError scryfallErr), events)
      else
        ((dec body).mapError .jsonError, events)

/-- Model of `Client.get`: resolve the relative URL against the base URL with the
external `net/url` reference resolution (`resolveRef`, failing with a
URL error before any call), build a body-less GET request
(`http.NewRequest` cannot fail on an already-resolved URL and the
constant method, so it is not a failure point here) and dispatch it. -/
def get (c : Client) (resolveRef : String → String → Except String String)
    (transport : Request → HttpResult) (relativeURL : String)
    (dec : Json → Except JsonError α) : Except GoError α × List Event :=
  match resolveRef c.baseURL relativeURL with
  | .error e => (.error (.urlError e), [])
  | .ok absoluteURL =>
      doReq c transport
        { method := "GET", url := absoluteURL, headers := [], body := none } dec

/-- The request-body computation of `Client.post` (lines 277-284 of
`scryfall.go`): no body value gives no body; a present value is
marshalled to JSON (`json.Marshal`), whose failure is the result. -/
def postBody (marshal : β → Except JsonError Json) (reqBody : Option β) :
    Except JsonError (Option Json) :=
  match reqBody with
  | none => .ok none
  | some v => (marshal v).map some

/-- Model of `Client.post`: resolve the relative URL; compute the
request body with `postBody` (a marshalling failure is returned before
any call); set the `Content-Type: application/json` header (line 290 of
`scryfall.go` — set unconditionally, after the `if reqBody != nil`
block); dispatch through `doReq`. -/
def post (c : Client) (resolveRef : String → String → Except String String)
    (transport : Request → HttpResult) (relativeURL : String)
    (marshal : β → Except JsonError Json) (reqBody : Option β)
    (dec : Json → Except JsonError α) : Except GoError α × List Event :=
  match resolveRef c.baseURL relativeURL with
  | .error e => (.error (.urlError e), [])
  | .ok absoluteURL =>
      match postBody marshal reqBody with
      | .error e => (.error (.jsonError e), [])
      | .ok body =>
          doReq c transport
            { method := "POST", url := absoluteURL
              headers := setHeader [] "Content-Type" "application/json"
              body := body } dec

/-- Model of `Client.listGet`: invoke the GET primitive with the destination
bound to the `listResponse` envelope shape; a failure of the GET is
returned as-is; on success the envelope's raw `Data` field is decoded
by the caller's destination decoder (`json.Unmarshal(response.Data, v)`,
a second decode pass). -/
def listGet (c : Client) (resolveRef : String → String → Except String String)
    (transport : Request → HttpResult) (url : String)
    (dec : Json → Except JsonError α) : Except GoError α × List Event :=
  match get c resolveRef transport url decodeListResponseJson with
  | (.error e, tr) => (.error e, tr)
  | (.ok response, tr) => ((unmarshalRaw dec response.Data).mapError .jsonError, tr)

/-! ## Dates and timestamps (`Date` / `Timestamp` of `scryfall.go`)

A Go `time.Time` is modelled by its wall-clock fields together with its
zone (name and offset east of UTC in seconds); the instant it denotes is
recovered by `instantSeconds`/`timeEqual` (the `time.Time.Equal` the
repository's tests compare with). -/

/-- Model of Go `time.Time`. -/
structure GoTime where
  year : Int
  month : Nat
  day : Nat
  hour : Nat
  minute : Nat
  second : Nat
  nanosecond : Nat
  zoneName : String
  offsetSeconds : Int
deriving Repr, DecidableEq

/-- The zero `time.Time{}`: January 1, year 1, 00:00:00 UTC. -/
def zeroTime : GoTime :=
  { year := 1, month := 1, day := 1, hour := 0, minute := 0, second := 0,
    nanosecond := 0, zoneName := "UTC", offsetSeconds := 0 }

/-- Go's leap-year rule (`time.isLeap`). -/
def isLeap (y : Int) : Bool :=
  y % 4 = 0 ∧ (y % 100 ≠ 0 ∨ y % 400 = 0)

/-- Days in a month, as `time`'s date validation uses it. -/
def daysInMonth (year : Int) (month : Nat) : Nat :=
  if month = 2 then (if isLeap year then 29 else 28)
  else if month = 4 ∨ month = 6 ∨ month = 9 ∨ month = 11 then 30
  else 31

/-- Day number of a proleptic-Gregorian civil date, with day 0 at
1970-01-01 (the standard civil-from-days correspondence). -/
def daysFromCivil (y : Int) (m d : Nat) : Int :=
  let y' : Int := if m ≤ 2 then y - 1 else y
  let era : Int := (if 0 ≤ y' then y' else y' - 399) / 400
  let yoe : Int := y' - era * 400
  let mp : Nat := (m + 9) % 12
  let doy : Int := (153 * mp + 2) / 5 + d - 1
  let doe : Int := yoe * 365 + yoe / 4 - yoe / 100 + doy
  era * 146097 + doe - 719468

/-- The instant a `GoTime` denotes, in seconds since the 1970 epoch:
the wall clock read at the zone offset. -/
def instantSeconds (t : GoTime) : Int :=
  daysFromCivil t.year t.month t.day * 86400
    + t.hour * 3600 + t.minute * 60 + t.second - t.offsetSeconds

/-- Model of `time.Time.Equal`: two times are equal when they denote the same
instant, regardless of zone. -/
def timeEqual (a b : GoTime) : Bool :=
  instantSeconds a = instantSeconds b ∧ a.nanosecond = b.nanosecond

/-- Decimal digit character for `n % 10`. -/
def digitChar (n : Nat) : Char :=
  Char.ofNat (48 + n % 10)

/-- Numeric value of a decimal digit character. -/
def charVal (c : Char) : Nat :=
  c.toNat - 48

/-- Go's zero-padded 2-digit formatting (layout `01` / `02`), for
values below 100. -/
def pad2 (n : Nat) : List Char :=
  [digitChar (n / 10), digitChar n]

/-- Go's zero-padded 4-digit year formatting (layout `2006`), for years
0 to 9999. -/
def pad4 (n : Nat) : List Char :=
  [digitChar (n / 1000), digitChar (n / 100), digitChar (n / 10), digitChar n]

/-- Model of `d.Format("2006-01-02")`: the wall-clock date of `d` in `d`'s own
zone (which the `GoTime` fields store directly), zero-padded. -/
def formatDate (t : GoTime) : String :=
  ⟨pad4 t.year.toNat ++ '-' :: (pad2 t.month ++ '-' :: pad2 t.day)⟩

/-- Model of `Date.MarshalJSON`: `fmt.Sprintf("\"%s\"", d.Format(dateFormat))`
(it never returns an error). -/
def DateMarshalJSON (d : GoTime) : String :=
  "\"" ++ formatDate d ++ "\""

/-- Model of `strings.Trim(s, "\"")`: remove all leading and trailing quote
characters. -/
def trimQuotes (s : String) : String :=
  ⟨((s.data.dropWhile (fun c => c = '"')).reverse.dropWhile
      (fun c => c = '"')).reverse⟩

/-- Model of `time.ParseInLocation("2006-01-02", s, loc)` for a fixed
zone `loc`: the input must be exactly four digits, `-`, two digits,
`-`, two digits (the layout's elements are fixed-width here and no
input may remain); the month must be 1..12 and the day 1..the month's
length (Go's date validation), and the result is midnight of that civil
date in the given zone. -/
def parseDateInLocation (s : String) (zoneName : String)
    (offsetSeconds : Int) : Except String GoTime :=
  match s.data with
  | [y1, y2, y3, y4, s1, m1, m2, s2, d1, d2] =>
      if y1.isDigit && y2.isDigit && y3.isDigit && y4.isDigit &&
          s1 == '-' && m1.isDigit && m2.isDigit && s2 == '-' &&
          d1.isDigit && d2.isDigit then
        let year : Int :=
          ((charVal y1 * 10 + charVal y2) * 10 + charVal y3) * 10 + charVal y4
        let month : Nat := charVal m1 * 10 + charVal m2
        let day : Nat := charVal d1 * 10 + charVal d2
        if 1 ≤ month ∧ month ≤ 12 then
          if 1 ≤ day ∧ day ≤ daysInMonth year month then
            .ok { year := year, month := month, day := day, hour := 0,
                  minute := 0, second := 0, nanosecond := 0,
                  zoneName := zoneName, offsetSeconds := offsetSeconds }
          else
            .error "parsing time: day out of range"
        else
          .error "parsing time: month out of range"
      else
        .error "parsing time: cannot parse as 2006-01-02"
  | _ => .error "parsing time: cannot parse as 2006-01-02"

/-- Model of `Date.UnmarshalJSON`: trim the quotes, return the receiver
unchanged on the literal `null`, otherwise parse with
`time.ParseInLocation` in `time.FixedZone("UTC-8", -8*60*60)`.
`localOffset` is the decoding machine's local timezone (ambient
`time.Local` in Go); the method never consults it. -/
def DateUnmarshalJSON (localOffset : Int) (d : GoTime) (b : String) :
    Except String GoTime :=
  let s := trimQuotes b
  if s = "null" then .ok d
  else parseDateInLocation s "UTC-8" (-8 * 60 * 60)

/-- Model of `Timestamp.UnmarshalJSON`: trim the quotes, return the receiver
unchanged on the literal `null`, otherwise delegate to the external
`time.Parse(timestampFormat, s)` (the abstract `parse`), storing its
result or returning its error. -/
def TimestampUnmarshalJSON (parse : String → Except String GoTime)
    (t : GoTime) (b : String) : Except String GoTime :=
  let s := trimQuotes b
  if s = "null" then .ok t
  else parse s

/-! ## Fixtures instantiating the abstract collaborators in witnesses -/

/-- A simple reference resolver instantiating the abstract `net/url`
resolution in witnesses: joins base and relative path. -/
def resolveRefJoin (base rel : String) : Except String String :=
  .ok (base ++ "/" ++ rel)

/-- The canonical `not_found` error body fixture of the repository's
tests. -/
def body404 : Json :=
  .obj [("status", .num 404), ("code", .str "not_found"),
        ("details", .str "The requested object was not found.")]

/-- The decoded form of `body404`. -/
def err404 : Error :=
  { Status := 404, Code := "not_found",
    Details := "The requested object was not found.", Type' := none,
    Warnings := [] }

/-- A transport answering every request with a 404 and `body404`. -/
def transport404 : Request → HttpResult :=
  fun _ => .response 404 body404

/-- A list-envelope body fixture. -/
def envelopeBody : Json :=
  .obj [("has_more", .bool false), ("data", .arr [.str "W", .str "U"]),
        ("next_page", .null)]

/-- A transport answering every request with a 200 and `envelopeBody`. -/
def transportList : Request → HttpResult :=
  fun _ => .response 200 envelopeBody

/-- A destination decoder for a `[]string` destination value. -/
def decStringList : Json → Except JsonError (List String) := fun j =>
  match j with
  | .arr xs => xs.mapM decodeStringElem
  | _ => .error ⟨"json: cannot unmarshal value into Go value of type []string"⟩

/-- A marshaller for a `Unit` request body. -/
def marshalUnit : Unit → Except JsonError Json :=
  fun _ => .ok .null

/-- The client `NewClient` builds from an empty option list. -/
def clientPlain : Client :=
  { baseURL := defaultBaseURL, userAgent := defaultUserAgent,
    authorization := "", client := { timeoutSeconds := defaultTimeout },
    limiter := some defaultReqPerSecond }

/-- The client `NewClient` builds from `[WithGrantSecret "tok"]`. -/
def clientGrant : Client :=
  { clientPlain with authorization := "Bearer tok" }

/-- The request `post` dispatches for a body-less POST to
`cards/collection` on `clientPlain`. -/
def postNoBodyReq : Request :=
  doReqRequest clientPlain
    { method := "POST", url := defaultBaseURL ++ "/" ++ "cards/collection",
      headers := setHeader [] "Content-Type" "application/json",
      body := none }

/-- The decoded form of `envelopeBody` as a `listResponse`. -/
def envListResp : listResponse :=
  { Data := some (.arr [.str "W", .str "U"]), HasMore := false,
    NextPage := none, TotalCards := none, Warnings := [] }

/-- The date 2018-04-27 at midnight in the fixed `UTC-8` zone (the test
fixture of `TestDateUnmarshalJSON`). -/
def date20180427 : GoTime :=
  { year := 2018, month := 4, day := 27, hour := 0, minute := 0,
    second := 0, nanosecond := 0, zoneName := "UTC-8",
    offsetSeconds := -8 * 60 * 60 }

/-! ## Helper lemmas: headers -/

theorem getHeader_setHeader_same (hs : List (String × String))
    (k v : String) : getHeader (setHeader hs k v) k = some v := by
  unfold getHeader setHeader
  rw [List.find?_append]
  have h1 : (hs.filter (fun kv => kv.1 ≠ k)).find? (fun kv => kv.1 = k) = none := by
    rw [List.find?_eq_none]
    intro x hx
    have := (List.mem_filter.mp hx).2
    simpa using this
  simp [h1]

theorem find?_filter_of_imp (l : List (String × String))
    (p q : String × String → Bool) (h : ∀ x, q x → p x) :
    (l.filter p).find? q = l.find? q := by
  induction l with
  | nil => rfl
  | cons a l ih =>
      by_cases hq : q a
      · have hp : p a := h a hq
        simp [List.filter_cons, hp, List.find?_cons, hq]
      · by_cases hp : p a
        · simp [List.filter_cons, hp, List.find?_cons, hq, ih]
        · simp [List.filter_cons, hp, List.find?_cons, hq, ih]

theorem getHeader_setHeader_other (hs : List (String × String))
    (k v k' : String) (h : k' ≠ k) :
    getHeader (setHeader hs k v) k' = getHeader hs k' := by
  unfold getHeader setHeader
  rw [List.find?_append]
  have h2 : ([(k, v)]).find? (fun kv => kv.1 = k') = none := by
    simp only [List.find?_cons]
    have : ¬(k = k') := fun hk => h hk.symm
    simp [this]
  have h1 : (hs.filter (fun kv => kv.1 ≠ k)).find? (fun kv => kv.1 = k') =
      hs.find? (fun kv => kv.1 = k') := by
    apply find?_filter_of_imp
    intro x hx
    have hx' : x.1 = k' := by simpa using hx
    have hne : x.1 ≠ k := fun hk => h (hx'.symm.trans hk)
    simpa using hne
  rw [h1, h2]
  cases hs.find? (fun kv => kv.1 = k') <;> rfl

theorem doReqRequest_userAgent (c : Client) (req : Request) :
    getHeader (doReqRequest c req).headers "User-Agent" = some c.userAgent := by
  unfold doReqRequest
  by_cases h : c.authorization.length ≠ 0
  · simp only [if_pos h]
    rw [getHeader_setHeader_other _ _ _ _ (by decide),
        getHeader_setHeader_other _ _ _ _ (by decide),
        getHeader_setHeader_same]
  · simp only [if_neg h]
    rw [getHeader_setHeader_other _ _ _ _ (by decide),
        getHeader_setHeader_same]

theorem doReqRequest_authorization_pos (c : Client) (req : Request)
    (h : c.authorization.length ≠ 0) :
    getHeader (doReqRequest c req).headers "Authorization" =
      some c.authorization := by
  unfold doReqRequest
  simp only [if_pos h]
  rw [getHeader_setHeader_same]

theorem doReqRequest_authorization_neg (c : Client) (req : Request)
    (h : ¬c.authorization.length ≠ 0)
    (h0 : getHeader req.headers "Authorization" = none) :
    getHeader (doReqRequest c req).headers "Authorization" = none := by
  unfold doReqRequest
  simp only [if_neg h]
  rw [getHeader_setHeader_other _ _ _ _ (by decide),
      getHeader_setHeader_other _ _ _ _ (by decide)]
  exact h0

theorem doReqRequest_preserves (c : Client) (req : Request) (key : String)
    (h1 : key ≠ "User-Agent") (h2 : key ≠ "Accept")
    (h3 : key ≠ "Authorization") :
    getHeader (doReqRequest c req).headers key = getHeader req.headers key := by
  unfold doReqRequest
  by_cases h : c.authorization.length ≠ 0
  · simp only [if_pos h]
    rw [getHeader_setHeader_other _ _ _ _ h3,
        getHeader_setHeader_other _ _ _ _ h2,
        getHeader_setHeader_other _ _ _ _ h1]
  · simp only [if_neg h]
    rw [getHeader_setHeader_other _ _ _ _ h2,
        getHeader_setHeader_other _ _ _ _ h1]

/-! ## Helper lemmas: traces -/

theorem doReq_trace (c : Client) (transport : Request → HttpResult)
    (req : Request) (dec : Json → Except JsonError α) :
    (doReq c transport req dec).2 =
      takeEvents c ++ [Event.httpCall (doReqRequest c req)] := by
  cases h : transport (doReqRequest c req) with
  | failure msg => simp [doReq, h]
  | response status body =>
      by_cases hs : status = 200
      · simp [doReq, h, hs]
      · cases hd : decodeErrorJson body <;> simp [doReq, h, hs, hd]

theorem mem_doReq_trace (c : Client) (transport : Request → HttpResult)
    (req : Request) (dec : Json → Except JsonError α) (r : Request)
    (h : Event.httpCall r ∈ (doReq c transport req dec).2) :
    r = doReqRequest c req := by
  rw [doReq_trace] at h
  rcases List.mem_append.mp h with h1 | h2
  · unfold takeEvents at h1
    split at h1 <;> simp at h1
  · simpa using h2

theorem mem_get_trace (c : Client)
    (resolveRef : String → String → Except String String)
    (transport : Request → HttpResult) (url : String)
    (dec : Json → Except JsonError α) (r : Request)
    (h : Event.httpCall r ∈ (get c resolveRef transport url dec).2) :
    ∃ absoluteURL, resolveRef c.baseURL url = .ok absoluteURL ∧
      r = doReqRequest c { method := "GET", url := absoluteURL,
                           headers := [], body := none } := by
  unfold get at h
  cases hres : resolveRef c.baseURL url with
  | error e => rw [hres] at h; simp at h
  | ok a =>
      rw [hres] at h
      exact ⟨a, rfl, mem_doReq_trace _ _ _ _ _ h⟩

theorem mem_post_trace (c : Client)
    (resolveRef : String → String → Except String String)
    (transport : Request → HttpResult) (url : String)
    (marshal : β → Except JsonError Json) (reqBody : Option β)
    (dec : Json → Except JsonError α) (r : Request)
    (h : Event.httpCall r ∈ (post c resolveRef transport url marshal reqBody dec).2) :
    ∃ absoluteURL body, resolveRef c.baseURL url = .ok absoluteURL ∧
      postBody marshal reqBody = .ok body ∧
      r = doReqRequest c { method := "POST", url := absoluteURL,
                           headers := setHeader [] "Content-Type" "application/json",
                           body := body } := by
  unfold post at h
  cases hres : resolveRef c.baseURL url with
  | error e => rw [hres] at h; simp at h
  | ok a =>
      rw [hres] at h
      cases hbody : postBody marshal reqBody with
      | error e => rw [hbody] at h; simp at h
      | ok body =>
          rw [hbody] at h
          exact ⟨a, body, rfl, rfl, mem_doReq_trace _ _ _ _ _ h⟩

theorem countCalls_doReq (c : Client) (transport : Request → HttpResult)
    (req : Request) (dec : Json → Except JsonError α) :
    countCalls (doReq c transport req dec).2 = 1 := by
  rw [doReq_trace]
  unfold countCalls takeEvents
  split <;> simp

theorem countCalls_get (c : Client)
    (resolveRef : String → String → Except String String)
    (transport : Request → HttpResult) (url : String)
    (dec : Json → Except JsonError α) :
    countCalls (get c resolveRef transport url dec).2 ≤ 1 := by
  unfold get
  cases resolveRef c.baseURL url with
  | error e => simp [countCalls]
  | ok a => exact (countCalls_doReq _ _ _ _).le

theorem countCalls_post (c : Client)
    (resolveRef : String → String → Except String String)
    (transport : Request → HttpResult) (url : String)
    (marshal : β → Except JsonError Json) (reqBody : Option β)
    (dec : Json → Except JsonError α) :
    countCalls (post c resolveRef transport url marshal reqBody dec).2 ≤ 1 := by
  unfold post
  cases resolveRef c.baseURL url with
  | error e => simp [countCalls]
  | ok a =>
      cases postBody marshal reqBody with
      | error e => simp [countCalls]
      | ok body => exact (countCalls_doReq _ _ _ _).le

theorem listGet_trace (c : Client)
    (resolveRef : String → String → Except String String)
    (transport : Request → HttpResult) (url : String)
    (dec : Json → Except JsonError α) :
    (listGet c resolveRef transport url dec).2 =
      (get c resolveRef transport url decodeListResponseJson).2 := by
  unfold listGet
  rcases hg : get c resolveRef transport url decodeListResponseJson with ⟨res, tr⟩
  cases res <;> simp

/-! ## Helper lemmas: date formatting and parsing -/

theorem digitChar_isDigit (n : Nat) : (digitChar n).isDigit = true := by
  unfold digitChar
  have h : n % 10 < 10 := Nat.mod_lt _ (by omega)
  set k := n % 10 with hk
  interval_cases k <;> decide

theorem charVal_digitChar (n : Nat) : charVal (digitChar n) = n % 10 := by
  unfold digitChar charVal
  have h : n % 10 < 10 := Nat.mod_lt _ (by omega)
  set k := n % 10 with hk
  interval_cases k <;> decide

theorem digitChar_ne_quote (n : Nat) : ¬digitChar n = '"' := by
  unfold digitChar
  have h : n % 10 < 10 := Nat.mod_lt _ (by omega)
  set k := n % 10 with hk
  interval_cases k <;> decide

theorem trimQuotes_around (a : Char) (mid : List Char) (b : Char)
    (ha : ¬a = '"') (hb : ¬b = '"') :
    trimQuotes ⟨'"' :: (a :: (mid ++ [b]) ++ ['"'])⟩ = ⟨a :: (mid ++ [b])⟩ := by
  unfold trimQuotes
  have h1 : ('"' :: (a :: (mid ++ [b]) ++ ['"'])).dropWhile
      (fun c => c = '"') = a :: (mid ++ [b] ++ ['"']) := by
    simp [List.dropWhile_cons, ha]
  rw [h1]
  have h2 : (a :: (mid ++ [b] ++ ['"'])).reverse =
      '"' :: (b :: (mid.reverse ++ [a])) := by
    simp
  rw [h2]
  have h3 : ('"' :: (b :: (mid.reverse ++ [a]))).dropWhile
      (fun c => c = '"') = b :: (mid.reverse ++ [a]) := by
    simp [List.dropWhile_cons, hb]
  rw [h3]
  congr 1
  simp

theorem daysInMonth_le (year : Int) (m : Nat) : daysInMonth year m ≤ 31 := by
  unfold daysInMonth
  split_ifs <;> omega

theorem parse_format (y m d : Nat) (zone : String) (off : Int)
    (hy : y ≤ 9999) (hm1 : 1 ≤ m) (hm2 : m ≤ 12)
    (hd1 : 1 ≤ d) (hd2 : d ≤ daysInMonth (y : Int) m) :
    parseDateInLocation ⟨pad4 y ++ '-' :: (pad2 m ++ '-' :: pad2 d)⟩ zone off =
      .ok { year := (y : Int), month := m, day := d, hour := 0, minute := 0,
            second := 0, nanosecond := 0, zoneName := zone,
            offsetSeconds := off } := by
  have hd31 : d ≤ 31 := le_trans hd2 (daysInMonth_le _ _)
  have hyi : ((((charVal (digitChar (y / 1000)) : Nat) : Int) * 10 +
      ((charVal (digitChar (y / 100)) : Nat) : Int)) * 10 +
      ((charVal (digitChar (y / 10)) : Nat) : Int)) * 10 +
      ((charVal (digitChar y) : Nat) : Int) = (y : Int) := by
    simp only [charVal_digitChar]
    omega
  have hms : charVal (digitChar (m / 10)) * 10 + charVal (digitChar m) = m := by
    simp only [charVal_digitChar]
    omega
  have hds : charVal (digitChar (d / 10)) * 10 + charVal (digitChar d) = d := by
    simp only [charVal_digitChar]
    omega
  show parseDateInLocation
      ⟨[digitChar (y / 1000), digitChar (y / 100), digitChar (y / 10),
        digitChar y, '-', digitChar (m / 10), digitChar m, '-',
        digitChar (d / 10), digitChar d]⟩ zone off = _
  unfold parseDateInLocation
  dsimp only
  rw [if_pos (by simp [digitChar_isDigit])]
  rw [hyi, hms, hds]
  rw [if_pos ⟨hm1, hm2⟩]
  rw [if_pos ⟨hd1, hd2⟩]

/-! ## Helper lemmas: construction -/

theorem NewClient_ok_fields (urlParse : String → Except String String)
    (options : List ClientOption) (c : Client)
    (hc : NewClient urlParse options = .ok c) :
    c.userAgent = (applyOptions options).userAgent ∧
    c.authorization = computeAuthorization (applyOptions options) ∧
    c.limiter = (applyOptions options).limiter ∧
    ¬((applyOptions options).clientSecret.length ≠ 0 ∧
      (applyOptions options).grantSecret.length ≠ 0) := by
  simp only [NewClient] at hc
  split at hc
  · cases hc
  · rename_i hb
    split at hc
    · cases hc
    · cases hc
      exact ⟨rfl, rfl, rfl, hb⟩

theorem NewClient_ok_of_not_both (urlParse : String → Except String String)
    (options : List ClientOption)
    (hnb : ¬((applyOptions options).clientSecret.length ≠ 0 ∧
        (applyOptions options).grantSecret.length ≠ 0))
    (u : String) (hu : urlParse (applyOptions options).baseURL = .ok u) :
    NewClient urlParse options =
      .ok { baseURL := u, userAgent := (applyOptions options).userAgent,
            authorization := computeAuthorization (applyOptions options),
            client := (applyOptions options).client,
            limiter := (applyOptions options).limiter } := by
  simp only [NewClient]
  rw [if_neg hnb, hu]

theorem computeAuthorization_grant (co : clientOptions)
    (h : co.grantSecret.length ≠ 0) :
    computeAuthorization co = "Bearer " ++ co.grantSecret := by
  unfold computeAuthorization
  simp [h]

theorem computeAuthorization_client (co : clientOptions)
    (h1 : co.clientSecret.length ≠ 0) (h2 : co.grantSecret.length = 0) :
    computeAuthorization co = "Bearer " ++ co.clientSecret := by
  unfold computeAuthorization
  simp [h1, h2]

theorem computeAuthorization_none (co : clientOptions)
    (h1 : co.clientSecret.length = 0) (h2 : co.grantSecret.length = 0) :
    computeAuthorization co = "" := by
  unfold computeAuthorization
  simp [h1, h2]

theorem computeAuthorization_length (co : clientOptions) :
    (computeAuthorization co).length ≠ 0 ↔
      (co.clientSecret.length ≠ 0 ∨ co.grantSecret.length ≠ 0) := by
  unfold computeAuthorization
  by_cases h2 : co.grantSecret.length ≠ 0
  · simp [h2, String.length_append]
  · by_cases h1 : co.clientSecret.length ≠ 0 <;>
      simp [h1, h2, String.length_append]

theorem bearer_length_ne_zero (s : String) : ("Bearer " ++ s).length ≠ 0 := by
  rw [String.length_append]
  have h7 : "Bearer ".length = 7 := rfl
  omega

theorem length_ne_zero_of_ne_empty (s : String) (h : s ≠ "") :
    s.length ≠ 0 := by
  cases s with
  | mk data =>
      cases data with
      | nil => exact absurd rfl h
      | cons a l => simp [String.length]

theorem doReqRequest_body (c : Client) (req : Request) :
    (doReqRequest c req).body = req.body := by
  unfold doReqRequest
  split <;> rfl

/-! ## The claims -/

/-- C1: for every HTTP response handled by the shared dispatch `doReq`
(used by `get` and `post`): if the status code is exactly 200, the body
is JSON-decoded directly into the caller's destination value and any
JSON-shape error is propagated to the caller unchanged (as its
injection into the operation's error type); if the status code is not
200, the result is never a successfully decoded destination value — it
is either the structured API error decoded from the body by
`decodeErrorJson` (filling the Status, Code, Details, Type and Warnings
fields) or, when the body does not decode as the error shape, the
distinct error-body decode failure. -/
theorem C1_doReq_decoding_contract (c : Client)
    (transport : Request → HttpResult) (req : Request)
    (dec : Json → Except JsonError α) (status : Nat) (body : Json)
    (hresp : transport (doReqRequest c req) = .response status body) :
    (status = 200 →
      (doReq c transport req dec).1 = (dec body).mapError GoError.jsonError) ∧
    (status ≠ 200 →
      ((doReq c transport req dec).1 =
        (match decodeErrorJson body with
         | .ok e => .error (.apiError e)
         | .error e => .error (.jsonError e)) ∧
       ∀ v : α, (doReq c transport req dec).1 ≠ .ok v)) := by
  constructor
  · intro h200
    simp [doReq, hresp, h200]
  · intro hne
    constructor
    · cases hd : decodeErrorJson body <;> simp [doReq, hresp, hne, hd]
    · intro v
      cases hd : decodeErrorJson body <;> simp [doReq, hresp, hne, hd]

/-- Witness for C1: a 404 response carrying the canonical `not_found`
body dispatches to the decoded structured API error, and to no
successfully decoded destination value. -/
theorem C1_witness :
    (doReq clientPlain transport404
        { method := "GET", url := defaultBaseURL, headers := [], body := none }
        decStringList).1 = .error (.apiError err404) ∧
    ∀ v : List String,
      (doReq clientPlain transport404
          { method := "GET", url := defaultBaseURL, headers := [], body := none }
          decStringList).1 ≠ .ok v := by
  have h := (C1_doReq_decoding_contract clientPlain transport404
      { method := "GET", url := defaultBaseURL, headers := [], body := none }
      decStringList 404 body404 rfl).2 (by decide)
  exact ⟨by rw [h.1]; decide, h.2⟩

/-- C3: for every `listGet` invocation: the GET primitive is invoked
with the list-envelope shape (`decodeListResponseJson`) as its
destination; if the underlying GET fails, that failure is returned
unchanged and the destination is not populated from `data`; on success
the envelope's raw `data` field is decoded into the caller's
destination (a second JSON decode pass), so the result is a function of
the envelope's `Data` field alone — the other envelope fields
(`has_more`, `next_page`, `total_cards`, `warnings`) are ignored. -/
theorem C3_listGet_unwraps_envelope (c : Client)
    (resolveRef : String → String → Except String String)
    (transport : Request → HttpResult) (url : String)
    (dec : Json → Except JsonError α) :
    (∀ e tr,
      get c resolveRef transport url decodeListResponseJson = (.error e, tr) →
      listGet c resolveRef transport url dec = (.error e, tr)) ∧
    (∀ r tr,
      get c resolveRef transport url decodeListResponseJson = (.ok r, tr) →
      listGet c resolveRef transport url dec =
        ((unmarshalRaw dec r.Data).mapError .jsonError, tr)) := by
  constructor
  · intro e tr h
    simp [listGet, h]
  · intro r tr h
    simp [listGet, h]

/-- Witness for C3: against the envelope
`{"has_more":false,"data":["W","U"],"next_page":null}` the destination
receives exactly the decoded contents of `data`. -/
theorem C3_witness :
    listGet clientPlain resolveRefJoin transportList "cards" decStringList =
      ((unmarshalRaw decStringList envListResp.Data).mapError .jsonError,
       [Event.limiterTake, Event.httpCall (doReqRequest clientPlain
         { method := "GET", url := defaultBaseURL ++ "/" ++ "cards",
           headers := [], body := none })]) ∧
    (unmarshalRaw decStringList envListResp.Data).mapError GoError.jsonError =
      .ok ["W", "U"] :=
  ⟨(C3_listGet_unwraps_envelope clientPlain resolveRefJoin transportList
      "cards" decStringList).2 envListResp _ rfl, rfl⟩

/-- C4: for every constructed client and every request dispatched by
`get` or `post`: the request carries the `User-Agent` identification
header, set to the client's user agent; it carries an `Authorization`
header if and only if a credential was configured (one of the secrets
is non-empty); and the header value is the bearer token
`"Bearer " ++ grantSecret` whenever the grant secret is set (the grant
secret takes precedence, its assignment overwriting the client
secret's) and `"Bearer " ++ clientSecret` when only the client secret
is set. -/
theorem C4_request_headers (urlParse : String → Except String String)
    (options : List ClientOption) (c : Client)
    (hc : NewClient urlParse options = .ok c)
    (resolveRef : String → String → Except String String)
    (transport : Request → HttpResult) (relativeURL : String)
    (dec : Json → Except JsonError α)
    (marshal : β → Except JsonError Json) (reqBody : Option β)
    (r : Request)
    (hmem : Event.httpCall r ∈ (get c resolveRef transport relativeURL dec).2 ∨
      Event.httpCall r ∈
        (post c resolveRef transport relativeURL marshal reqBody dec).2) :
    getHeader r.headers "User-Agent" = some c.userAgent ∧
    ((getHeader r.headers "Authorization").isSome ↔
      ((applyOptions options).clientSecret.length ≠ 0 ∨
       (applyOptions options).grantSecret.length ≠ 0)) ∧
    ((applyOptions options).grantSecret.length ≠ 0 →
      getHeader r.headers "Authorization" =
        some ("Bearer " ++ (applyOptions options).grantSecret)) ∧
    ((applyOptions options).clientSecret.length ≠ 0 ∧
        (applyOptions options).grantSecret.length = 0 →
      getHeader r.headers "Authorization" =
        some ("Bearer " ++ (applyOptions options).clientSecret)) := by
  obtain ⟨hua, hauth, _, _⟩ := NewClient_ok_fields urlParse options c hc
  have hbase : ∃ req0 : Request, r = doReqRequest c req0 ∧
      getHeader req0.headers "Authorization" = none := by
    rcases hmem with hg | hp
    · obtain ⟨a, _, hr⟩ := mem_get_trace _ _ _ _ _ _ hg
      exact ⟨_, hr, rfl⟩
    · obtain ⟨a, body, _, _, hr⟩ := mem_post_trace _ _ _ _ _ _ _ _ hp
      refine ⟨_, hr, ?_⟩
      rw [getHeader_setHeader_other _ _ _ _ (by decide)]
      rfl
  obtain ⟨req0, hr, h0⟩ := hbase
  subst hr
  refine ⟨doReqRequest_userAgent c req0, ?_, ?_, ?_⟩
  · rw [← computeAuthorization_length (applyOptions options), ← hauth]
    by_cases ha : c.authorization.length ≠ 0
    · rw [doReqRequest_authorization_pos c req0 ha]
      simpa using ha
    · rw [doReqRequest_authorization_neg c req0 ha h0]
      simpa using ha
  · intro hg
    have hv : c.authorization = "Bearer " ++ (applyOptions options).grantSecret :=
      hauth.trans (computeAuthorization_grant _ hg)
    have ha : c.authorization.length ≠ 0 := by
      rw [hv]; exact bearer_length_ne_zero _
    rw [doReqRequest_authorization_pos c req0 ha, hv]
  · rintro ⟨h1, h2⟩
    have hv : c.authorization = "Bearer " ++ (applyOptions options).clientSecret :=
      hauth.trans (computeAuthorization_client _ h1 h2)
    have ha : c.authorization.length ≠ 0 := by
      rw [hv]; exact bearer_length_ne_zero _
    rw [doReqRequest_authorization_pos c req0 ha, hv]

/-- Witness for C4: the client built from `[WithGrantSecret "tok"]`
dispatches its GET requests with the identification header and the
grant bearer token. -/
theorem C4_witness :
    getHeader (doReqRequest clientGrant
      { method := "GET", url := defaultBaseURL ++ "/" ++ "cards",
        headers := [], body := none }).headers "User-Agent" =
      some clientGrant.userAgent ∧
    ((getHeader (doReqRequest clientGrant
      { method := "GET", url := defaultBaseURL ++ "/" ++ "cards",
        headers := [], body := none }).headers "Authorization").isSome ↔
      ((applyOptions [WithGrantSecret "tok"]).clientSecret.length ≠ 0 ∨
       (applyOptions [WithGrantSecret "tok"]).grantSecret.length ≠ 0)) ∧
    ((applyOptions [WithGrantSecret "tok"]).grantSecret.length ≠ 0 →
      getHeader (doReqRequest clientGrant
        { method := "GET", url := defaultBaseURL ++ "/" ++ "cards",
          headers := [], body := none }).headers "Authorization" =
        some ("Bearer " ++ (applyOptions [WithGrantSecret "tok"]).grantSecret)) ∧
    ((applyOptions [WithGrantSecret "tok"]).clientSecret.length ≠ 0 ∧
        (applyOptions [WithGrantSecret "tok"]).grantSecret.length = 0 →
      getHeader (doReqRequest clientGrant
        { method := "GET", url := defaultBaseURL ++ "/" ++ "cards",
          headers := [], body := none }).headers "Authorization" =
        some ("Bearer " ++ (applyOptions [WithGrantSecret "tok"]).clientSecret)) :=
  C4_request_headers urlParseModel [WithGrantSecret "tok"] clientGrant
    (by decide) resolveRefJoin transport404 "cards" decStringList
    marshalUnit (none : Option Unit) _
    (Or.inl (List.Mem.tail _ (List.Mem.head _)))

/-- Counterexample to C5 as stated: the JSON content-type header is not
attached only when a request-body value is present — `post` sets it
unconditionally (line 290 of `scryfall.go` sits outside the
`if reqBody != nil` block).  A POST invocation with no body value still
dispatches a request that has no body but carries
`Content-Type: application/json`. -/
theorem C5_counterexample :
    (post clientPlain resolveRefJoin transportList "cards/collection"
        marshalUnit (none : Option Unit) decStringList).2 =
      [Event.limiterTake, Event.httpCall postNoBodyReq] ∧
    postNoBodyReq.body = none ∧
    getHeader postNoBodyReq.headers "Content-Type" = some "application/json" :=
  ⟨rfl, rfl, by decide⟩

/-- C5 (amended): for every invocation of the POST primitive, the JSON
content-type header is attached to the dispatched request whether or
not a request-body value is present (the source attaches it
unconditionally); when the body value is present it is marshalled to
JSON and attached as the request body, and when it is absent the
request is sent with no body. -/
theorem C5_post_body_and_content_type (c : Client)
    (resolveRef : String → String → Except String String)
    (transport : Request → HttpResult) (relativeURL : String)
    (marshal : β → Except JsonError Json) (reqBody : Option β)
    (dec : Json → Except JsonError α) (r : Request)
    (hmem : Event.httpCall r ∈
      (post c resolveRef transport relativeURL marshal reqBody dec).2) :
    getHeader r.headers "Content-Type" = some "application/json" ∧
    (reqBody = none → r.body = none) ∧
    (∀ v j, reqBody = some v → marshal v = .ok j → r.body = some j) := by
  obtain ⟨a, body, hres, hbody, hr⟩ := mem_post_trace _ _ _ _ _ _ _ _ hmem
  subst hr
  refine ⟨?_, ?_, ?_⟩
  · rw [doReqRequest_preserves _ _ _ (by decide) (by decide) (by decide),
        getHeader_setHeader_same]
  · intro hn
    subst hn
    simp only [postBody] at hbody
    cases hbody
    rw [doReqRequest_body]
  · intro v j hv hj
    subst hv
    simp only [postBody, hj, Except.map] at hbody
    cases hbody
    rw [doReqRequest_body]

/-- Witness for C5 (amended): a POST with a present body value
dispatches a request carrying the JSON content-type header and the
marshalled body. -/
theorem C5_witness :
    getHeader (doReqRequest clientPlain
      { method := "POST", url := defaultBaseURL ++ "/" ++ "cards/collection",
        headers := setHeader [] "Content-Type" "application/json",
        body := some Json.null }).headers "Content-Type" =
      some "application/json" ∧
    ((some () : Option Unit) = none →
      (doReqRequest clientPlain
        { method := "POST", url := defaultBaseURL ++ "/" ++ "cards/collection",
          headers := setHeader [] "Content-Type" "application/json",
          body := some Json.null }).body = none) ∧
    (∀ v j, (some () : Option Unit) = some v → marshalUnit v = .ok j →
      (doReqRequest clientPlain
        { method := "POST", url := defaultBaseURL ++ "/" ++ "cards/collection",
          headers := setHeader [] "Content-Type" "application/json",
          body := some Json.null }).body = some j) :=
  C5_post_body_and_content_type clientPlain resolveRefJoin transportList
    "cards/collection" marshalUnit (some ()) decStringList _
    (List.Mem.tail _ (List.Mem.head _))

/-- C6: encoding a date-only value and decoding the result yields an
instant equal to the original to day granularity — the decoded value is
midnight of the same civil year, month and day, in the fixed `UTC-8`
zone (for every wall date with a four-digit year, the range Go's fixed
layout `2006-01-02` both prints and parses); in particular, encoding
the date 2018-04-27 in the fixed UTC-8 offset produces the literal
string `"2018-04-27"`, decoding that string is independent of the
decoding machine's local timezone, and it reproduces exactly the
original instant. -/
theorem C6_date_roundtrip (d : GoTime) (r : GoTime) (localOffset : Int)
    (hy1 : 1 ≤ d.year) (hy2 : d.year ≤ 9999)
    (hm1 : 1 ≤ d.month) (hm2 : d.month ≤ 12)
    (hd1 : 1 ≤ d.day) (hd2 : d.day ≤ daysInMonth d.year d.month) :
    DateUnmarshalJSON localOffset r (DateMarshalJSON d) =
      .ok { year := d.year, month := d.month, day := d.day, hour := 0,
            minute := 0, second := 0, nanosecond := 0, zoneName := "UTC-8",
            offsetSeconds := -8 * 60 * 60 } ∧
    DateMarshalJSON date20180427 = "\"2018-04-27\"" ∧
    (∀ z₁ z₂ r', DateUnmarshalJSON z₁ r' "\"2018-04-27\"" =
                 DateUnmarshalJSON z₂ r' "\"2018-04-27\"") ∧
    (∃ d', DateUnmarshalJSON localOffset zeroTime "\"2018-04-27\"" = .ok d' ∧
       timeEqual d' date20180427 = true) := by
  refine ⟨?_, by decide, fun z₁ z₂ r' => rfl, ⟨date20180427, rfl, by decide⟩⟩
  have hcast : ((d.year.toNat : Nat) : Int) = d.year :=
    Int.toNat_of_nonneg (by omega)
  have hmars : DateMarshalJSON d =
      ⟨'"' :: (digitChar (d.year.toNat / 1000) ::
        ([digitChar (d.year.toNat / 100), digitChar (d.year.toNat / 10),
          digitChar d.year.toNat, '-', digitChar (d.month / 10),
          digitChar d.month, '-', digitChar (d.day / 10)] ++
          [digitChar d.day]) ++ ['"'])⟩ := rfl
  have htrim : trimQuotes (DateMarshalJSON d) = formatDate d := by
    rw [hmars, trimQuotes_around _ _ _ (digitChar_ne_quote _)
      (digitChar_ne_quote _)]
    rfl
  have hnn : ¬(formatDate d = "null") := by
    intro h
    have hlen := congrArg (fun s => s.data.length) h
    have h10 : (formatDate d).data.length = 10 := by
      simp [formatDate, pad4, pad2]
    have h4 : ("null" : String).data.length = 4 := rfl
    simp only [h10, h4] at hlen
    exact absurd hlen (by decide)
  simp only [DateUnmarshalJSON]
  rw [htrim, if_neg hnn]
  rw [show formatDate d =
    ⟨pad4 d.year.toNat ++ '-' :: (pad2 d.month ++ '-' :: pad2 d.day)⟩ from rfl]
  rw [parse_format d.year.toNat d.month d.day "UTC-8" (-8 * 60 * 60)
    (by omega) hm1 hm2 hd1 (by rw [hcast]; exact hd2)]
  rw [hcast]

/-- Witness for C6 at the repository's own fixture: the date 2018-04-27
at midnight UTC-8 round-trips exactly. -/
theorem C6_witness :
    DateUnmarshalJSON 0 zeroTime (DateMarshalJSON date20180427) =
      .ok { year := date20180427.year, month := date20180427.month,
            day := date20180427.day, hour := 0, minute := 0, second := 0,
            nanosecond := 0, zoneName := "UTC-8",
            offsetSeconds := -8 * 60 * 60 } ∧
    DateMarshalJSON date20180427 = "\"2018-04-27\"" ∧
    (∀ z₁ z₂ r', DateUnmarshalJSON z₁ r' "\"2018-04-27\"" =
                 DateUnmarshalJSON z₂ r' "\"2018-04-27\"") ∧
    (∃ d', DateUnmarshalJSON 0 zeroTime "\"2018-04-27\"" = .ok d' ∧
       timeEqual d' date20180427 = true) :=
  C6_date_roundtrip date20180427 zeroTime 0 (by decide) (by decide)
    (by decide) (by decide) (by decide) (by decide)

/-- C7: for both wire timestamp conventions (`Date.UnmarshalJSON` and
`Timestamp.UnmarshalJSON`, the latter for every external timestamp
parser), decoding the literal input `null` returns no error and leaves
the value as the zero-value instant. -/
theorem C7_null_decoding (localOffset : Int)
    (parse : String → Except String GoTime) :
    DateUnmarshalJSON localOffset zeroTime "null" = .ok zeroTime ∧
    TimestampUnmarshalJSON parse zeroTime "null" = .ok zeroTime := by
  constructor <;> rfl

/-- Witness for C7 at a concrete local offset and timestamp parser. -/
theorem C7_witness :
    DateUnmarshalJSON 0 zeroTime "null" = .ok zeroTime ∧
    TimestampUnmarshalJSON (fun _ => .error "unused") zeroTime "null" =
      .ok zeroTime :=
  C7_null_decoding 0 (fun _ => .error "unused")

/-- C8: for every invocation of the `get` or `post` primitive (and the
`listGet` built on them), at most one HTTP call is made — no retries —
whatever the URL resolution, marshalling, transport and decoding
outcomes are; every failure is the immediately returned `Except` value,
with no partial-success state. -/
theorem C8_at_most_one_call (c : Client)
    (resolveRef : String → String → Except String String)
    (transport : Request → HttpResult) (relativeURL : String)
    (dec : Json → Except JsonError α) (marshal : β → Except JsonError Json)
    (reqBody : Option β) (dec' : Json → Except JsonError γ)
    (dec'' : Json → Except JsonError δ) :
    countCalls (get c resolveRef transport relativeURL dec).2 ≤ 1 ∧
    countCalls (post c resolveRef transport relativeURL marshal reqBody dec').2 ≤ 1 ∧
    countCalls (listGet c resolveRef transport relativeURL dec'').2 ≤ 1 := by
  refine ⟨countCalls_get _ _ _ _ _, countCalls_post _ _ _ _ _ _ _, ?_⟩
  rw [listGet_trace]
  exact countCalls_get _ _ _ _ _

/-- Counterexample to C2 as stated: the double-credential check is not
the only reason `NewClient` can fail.  With no secret configured at
all, overriding the base URL with a string containing a control byte
makes `NewClient` fail — with the `net/url` parse error, not with
`ErrMultipleSecrets`. -/
theorem C2_counterexample :
    NewClient urlParseModel [WithBaseURL "ht\ntp://example.com"] =
      .error (.urlError "net/url: invalid control character in URL") ∧
    (applyOptions [WithBaseURL "ht\ntp://example.com"]).clientSecret.length = 0 ∧
    (applyOptions [WithBaseURL "ht\ntp://example.com"]).grantSecret.length = 0 := by
  refine ⟨by decide, rfl, rfl⟩

/-- C2 (amended): for every option sequence and base-URL parser, if
both the client secret and the grant secret are set (non-empty),
construction fails with the configuration error `ErrMultipleSecrets` —
the check precedes URL parsing, and construction has no access to a
transport at all, so no network activity is possible — and
`ErrMultipleSecrets` is returned only in that case.  The
double-credential check is however not the only failure mode: when the
secrets are not both set, `NewClient` fails exactly when parsing the
configured base URL fails, returning that URL error. -/
theorem C2_construction_failure (urlParse : String → Except String String)
    (options : List ClientOption) :
    ((applyOptions options).clientSecret.length ≠ 0 ∧
        (applyOptions options).grantSecret.length ≠ 0 →
      NewClient urlParse options = .error .errMultipleSecrets) ∧
    (NewClient urlParse options = .error .errMultipleSecrets →
      (applyOptions options).clientSecret.length ≠ 0 ∧
        (applyOptions options).grantSecret.length ≠ 0) ∧
    (¬((applyOptions options).clientSecret.length ≠ 0 ∧
        (applyOptions options).grantSecret.length ≠ 0) →
      ∀ e, NewClient urlParse options = .error e ↔
        ∃ msg, urlParse (applyOptions options).baseURL = .error msg ∧
          e = .urlError msg) := by
  by_cases hb : (applyOptions options).clientSecret.length ≠ 0 ∧
      (applyOptions options).grantSecret.length ≠ 0
  · refine ⟨fun _ => ?_, fun _ => hb, fun hnb => absurd hb hnb⟩
    simp only [NewClient]
    rw [if_pos hb]
  · refine ⟨fun h => absurd h hb, fun h => ?_, fun _ => ?_⟩
    · exfalso
      simp only [NewClient] at h
      rw [if_neg hb] at h
      cases hu : urlParse (applyOptions options).baseURL with
      | error msg => rw [hu] at h; cases h
      | ok u => rw [hu] at h; cases h
    · intro e
      simp only [NewClient]
      rw [if_neg hb]
      cases hu : urlParse (applyOptions options).baseURL with
      | error msg =>
          simp only [Except.error.injEq]
          constructor
          · intro he; exact ⟨msg, rfl, he.symm⟩
          · rintro ⟨msg', hm, he⟩
            cases hm
            exact he.symm
      | ok u =>
          constructor
          · intro he; cases he
          · rintro ⟨msg', hm, he⟩
            cases hm

/-- Witness for C2 (amended), first component: with both secrets set,
construction fails with `ErrMultipleSecrets`. -/
theorem C2_witness :
    NewClient urlParseModel [WithClientSecret "abc", WithGrantSecret "tok"] =
      .error .errMultipleSecrets :=
  (C2_construction_failure urlParseModel
      [WithClientSecret "abc", WithGrantSecret "tok"]).1 (by decide)

/-- C10: a secret set to the empty string counts as no credential at
all — credential presence is non-empty length.  Configuring
`WithClientSecret ""` together with `WithGrantSecret s` for non-empty
`s` does not fail with `ErrMultipleSecrets` but constructs a client
whose authorization value is `"Bearer " ++ s`; and a client configured
with only empty-string secrets has no credential, so its dispatched
requests carry no `Authorization` header. -/
theorem C10_empty_secret_no_credential
    (urlParse : String → Except String String) (s : String) (hs : s ≠ "")
    (u : String) (hu : urlParse defaultBaseURL = .ok u)
    (resolveRef : String → String → Except String String)
    (transport : Request → HttpResult) (relativeURL : String)
    (dec : Json → Except JsonError α) :
    (∃ c, NewClient urlParse [WithClientSecret "", WithGrantSecret s] =
        .ok c ∧ c.authorization = "Bearer " ++ s) ∧
    (∃ c, NewClient urlParse [WithClientSecret "", WithGrantSecret ""] =
        .ok c ∧ c.authorization = "" ∧
      ∀ r, Event.httpCall r ∈ (get c resolveRef transport relativeURL dec).2 →
        getHeader r.headers "Authorization" = none) := by
  have hsl : s.length ≠ 0 := length_ne_zero_of_ne_empty s hs
  constructor
  · refine ⟨_, NewClient_ok_of_not_both urlParse
      [WithClientSecret "", WithGrantSecret s] (fun h => h.1 rfl) u hu, ?_⟩
    exact computeAuthorization_grant _ hsl
  · refine ⟨_, NewClient_ok_of_not_both urlParse
      [WithClientSecret "", WithGrantSecret ""] (fun h => h.1 rfl) u hu, ?_, ?_⟩
    · exact computeAuthorization_none
        (applyOptions [WithClientSecret "", WithGrantSecret ""]) rfl rfl
    · intro r hr
      obtain ⟨a, _, hreq⟩ := mem_get_trace _ _ _ _ _ _ hr
      subst hreq
      apply doReqRequest_authorization_neg
      · rw [computeAuthorization_none
          (applyOptions [WithClientSecret "", WithGrantSecret ""]) rfl rfl]
        simp
      · rfl

/-- Witness for C10: with the modelled URL parser, the pair
`WithClientSecret ""` and `WithGrantSecret "tok"` constructs a client
carrying `"Bearer tok"`. -/
theorem C10_witness :
    ∃ c, NewClient urlParseModel [WithClientSecret "", WithGrantSecret "tok"] =
        .ok c ∧ c.authorization = "Bearer " ++ "tok" :=
  (C10_empty_secret_no_credential urlParseModel "tok" (by decide)
      defaultBaseURL (by decide) resolveRefJoin transport404 "cards"
      decStringList).1

/-- Witness for C8 at concrete arguments. -/
theorem C8_witness :
    countCalls (get clientPlain resolveRefJoin transport404 "cards"
      decStringList).2 ≤ 1 ∧
    countCalls (post clientPlain resolveRefJoin transport404 "cards"
      marshalUnit none decStringList).2 ≤ 1 ∧
    countCalls (listGet clientPlain resolveRefJoin transport404 "cards"
      decStringList).2 ≤ 1 :=
  C8_at_most_one_call clientPlain resolveRefJoin transport404 "cards"
    decStringList marshalUnit none decStringList decStringList

end Scryfall
